import Mathlib

/-!
Verification of the VerusCoin transaction primitives
(src/primitives/transaction.h): the value objects (outpoint, input,
output, JoinSplit description, transaction), the versioned binary codec
shared by CTransaction and CMutableTransaction (Sprout v1/v2,
Overwinter v3), the dust-threshold computation, and the
proof-of-stake eligibility hash.

The byte-stream primitives (fixed-width little-endian integers,
compact-size length prefixes for sequences) live in serialize.h, which
is outside the excerpted core; they are modelled from the spec of the
wire format (fixed-width integer encodings, length-prefixed sequences).
A byte stream is a list of naturals, each below 256 when produced by an
encoder.  Machine integers are naturals, or integers for the signed
amount and version fields, with wrapping made explicit where the C++
code converts between signed and unsigned representations.
-/

set_option linter.unusedVariables false

namespace VerusCoin

/-- Errors of the codec: stream exhaustion, and the consensus-level
"Unknown transaction format" failure thrown by the transaction
serialization code. -/
inductive SerErr where
  | truncated
  | unknownFormat
deriving DecidableEq

/-- Modelled from the spec: fixed-width little-endian encoding of an
unsigned integer into `w` bytes, as the wire format uses for its
fixed-width integer fields and fixed-size byte blobs (serialize.h is
outside the excerpted core). -/
def serFixed : Nat → Nat → List Nat
  | 0, _ => []
  | w + 1, n => n % 256 :: serFixed w (n / 256)

/-- Modelled from the spec: reading a `w`-byte little-endian unsigned
integer from the stream. -/
def rdFixed : Nat → List Nat → Except SerErr (Nat × List Nat)
  | 0, s => .ok (0, s)
  | _ + 1, [] => .error .truncated
  | w + 1, b :: s =>
    match rdFixed w s with
    | .error e => .error e
    | .ok (m, r) => .ok (b + 256 * m, r)

/-- Four-byte little-endian encoding of a 32-bit word. -/
def ser32 (n : Nat) : List Nat := serFixed 4 n

/-- Reading a 32-bit little-endian word. -/
def rdU32 (s : List Nat) : Except SerErr (Nat × List Nat) := rdFixed 4 s

/-- Thirty-two-byte encoding of a 256-bit value (uint256). -/
def ser256 (n : Nat) : List Nat := serFixed 32 n

/-- Reading a 256-bit value. -/
def rd256 (s : List Nat) : Except SerErr (Nat × List Nat) := rdFixed 32 s

/-- The value of a signed 64-bit integer reinterpreted as unsigned,
as the C++ conversion int64_t to uint64_t produces. -/
def toUInt64 (i : Int) : Nat := (i % (18446744073709551616 : Int)).toNat

/-- The value of a signed integer truncated to an unsigned 32-bit word,
as the C++ conversion int32_t to uint32_t produces. -/
def toUInt32 (i : Int) : Nat := (i % (4294967296 : Int)).toNat

/-- The signed 64-bit value whose unsigned representation is `n`
(twos-complement reading of the low 64 bits). -/
def toInt64 (n : Nat) : Int :=
  if n < 9223372036854775808 then (n : Int) else (n : Int) - 18446744073709551616

/-- Eight-byte little-endian encoding of a signed 64-bit amount
(CAmount), written as its twos-complement unsigned value. -/
def ser64i (i : Int) : List Nat := serFixed 8 (toUInt64 i)

/-- Reading a signed 64-bit amount. -/
def rd64i (s : List Nat) : Except SerErr (Int × List Nat) :=
  match rdFixed 8 s with
  | .error e => .error e
  | .ok (n, r) => .ok (toInt64 n, r)

/-- Modelled from the spec: the compact-size length encoding placed
before every variable-length sequence of the wire format. -/
def writeCompactSize (n : Nat) : List Nat :=
  if n < 253 then [n]
  else if n < 65536 then 253 :: serFixed 2 n
  else if n < 4294967296 then 254 :: serFixed 4 n
  else 255 :: serFixed 8 n

/-- Modelled from the spec: reading a compact-size length. -/
def readCompactSize : List Nat → Except SerErr (Nat × List Nat)
  | [] => .error .truncated
  | b :: s =>
    if b < 253 then .ok (b, s)
    else if b = 253 then rdFixed 2 s
    else if b = 254 then rdFixed 4 s
    else rdFixed 8 s

/-- Reading a run of `k` raw bytes. -/
def rdBytes : Nat → List Nat → Except SerErr (List Nat × List Nat)
  | 0, s => .ok ([], s)
  | _ + 1, [] => .error .truncated
  | k + 1, b :: s =>
    match rdBytes k s with
    | .error e => .error e
    | .ok (bs, r) => .ok (b :: bs, r)

/-- Script byte buffers (CScript) are serialized as a compact-size
length followed by the raw bytes. -/
def serScript (sc : List Nat) : List Nat := writeCompactSize sc.length ++ sc

/-- Reading a script byte buffer. -/
def rdScript (s : List Nat) : Except SerErr (List Nat × List Nat) :=
  match readCompactSize s with
  | .error e => .error e
  | .ok (n, r) => rdBytes n r

/-- Reading exactly `k` consecutive records with the element reader
`rd`. -/
def rdCount (rd : List Nat → Except SerErr (α × List Nat)) :
    Nat → List Nat → Except SerErr (List α × List Nat)
  | 0, s => .ok ([], s)
  | k + 1, s =>
    match rd s with
    | .error e => .error e
    | .ok (x, s1) =>
      match rdCount rd k s1 with
      | .error e => .error e
      | .ok (xs, r) => .ok (x :: xs, r)

/-- A variable-length sequence: compact-size count, then the encodings
of the elements in order. -/
def serVec (f : α → List Nat) (xs : List α) : List Nat :=
  writeCompactSize xs.length ++ (xs.map f).flatten

/-- Reading a variable-length sequence. -/
def rdVec (rd : List Nat → Except SerErr (α × List Nat)) (s : List Nat) :
    Except SerErr (List α × List Nat) :=
  match readCompactSize s with
  | .error e => .error e
  | .ok (n, r) => rdCount rd n r

/-! Round-trip lemmas for the primitives. -/

theorem rdFixed_serFixed (w : Nat) : ∀ (n : Nat) (r : List Nat), n < 256 ^ w →
    rdFixed w (serFixed w n ++ r) = .ok (n, r) := by
  induction w with
  | zero =>
    intro n r h
    simp only [Nat.pow_zero, Nat.lt_one_iff] at h
    simp [serFixed, rdFixed, h]
  | succ w ih =>
    intro n r h
    have hdiv : n / 256 < 256 ^ w := by
      rw [Nat.div_lt_iff_lt_mul (by norm_num)]
      calc n < 256 ^ (w + 1) := h
        _ = 256 ^ w * 256 := by rw [Nat.pow_succ]
    simp only [serFixed, rdFixed, List.cons_append, List.append_eq]
    rw [ih (n / 256) r hdiv]
    simp only [Except.ok.injEq, Prod.mk.injEq, and_true]
    omega

theorem rdU32_ser32 (n : Nat) (r : List Nat) (h : n < 4294967296) :
    rdU32 (ser32 n ++ r) = .ok (n, r) := by
  have : n < 256 ^ 4 := by norm_num at *; omega
  exact rdFixed_serFixed 4 n r this

theorem rd256_ser256 (n : Nat) (r : List Nat)
    (h : n < 115792089237316195423570985008687907853269984665640564039457584007913129639936) :
    rd256 (ser256 n ++ r) = .ok (n, r) := by
  have h2 : n < 256 ^ 32 := by
    have : (256 : Nat) ^ 32 =
        115792089237316195423570985008687907853269984665640564039457584007913129639936 := by
      norm_num
    omega
  exact rdFixed_serFixed 32 n r h2

/-- A signed 64-bit value survives the unsigned round trip. -/
theorem toInt64_toUInt64 (i : Int)
    (h1 : -9223372036854775808 ≤ i) (h2 : i < 9223372036854775808) :
    toInt64 (toUInt64 i) = i := by
  unfold toInt64 toUInt64
  have hmod : i % (18446744073709551616 : Int) =
      if 0 ≤ i then i else i + 18446744073709551616 := by
    split <;> omega
  rw [hmod]
  split
  · split <;> omega
  · split <;> omega

theorem toUInt64_lt (i : Int) : toUInt64 i < 18446744073709551616 := by
  unfold toUInt64
  omega

theorem rd64i_ser64i (i : Int) (r : List Nat)
    (h1 : -9223372036854775808 ≤ i) (h2 : i < 9223372036854775808) :
    rd64i (ser64i i ++ r) = .ok (i, r) := by
  unfold rd64i ser64i
  have hb : toUInt64 i < 256 ^ 8 := by
    have := toUInt64_lt i
    norm_num
    omega
  rw [rdFixed_serFixed 8 (toUInt64 i) r hb]
  simp [toInt64_toUInt64 i h1 h2]

theorem readCompactSize_write (n : Nat) (r : List Nat)
    (h : n < 18446744073709551616) :
    readCompactSize (writeCompactSize n ++ r) = .ok (n, r) := by
  unfold writeCompactSize readCompactSize
  by_cases h1 : n < 253
  · simp [h1]
  · by_cases h2 : n < 65536
    · have hb : n < 256 ^ 2 := by norm_num; omega
      simp only [h1, if_false, h2, if_true, List.cons_append]
      have : ¬ (253 : Nat) < 253 := by omega
      simp [this, rdFixed_serFixed 2 n r hb]
    · by_cases h3 : n < 4294967296
      · have hb : n < 256 ^ 4 := by norm_num; omega
        simp only [h1, if_false, h2, h3, if_true, List.cons_append]
        have c1 : ¬ (254 : Nat) < 253 := by omega
        have c2 : ¬ (254 : Nat) = 253 := by omega
        simp [c1, c2, rdFixed_serFixed 4 n r hb]
      · have hb : n < 256 ^ 8 := by norm_num; omega
        simp only [h1, if_false, h2, h3, List.cons_append]
        have c1 : ¬ (255 : Nat) < 253 := by omega
        have c2 : ¬ (255 : Nat) = 253 := by omega
        have c3 : ¬ (255 : Nat) = 254 := by omega
        simp [c1, c2, c3, rdFixed_serFixed 8 n r hb]

theorem rdBytes_append (bs : List Nat) (r : List Nat) :
    rdBytes bs.length (bs ++ r) = .ok (bs, r) := by
  induction bs with
  | nil => simp [rdBytes]
  | cons b tl ih => simp [rdBytes, ih]

theorem rdScript_serScript (sc : List Nat) (r : List Nat)
    (h : sc.length < 18446744073709551616) :
    rdScript (serScript sc ++ r) = .ok (sc, r) := by
  unfold rdScript serScript
  rw [List.append_assoc, readCompactSize_write sc.length (sc ++ r) h]
  exact rdBytes_append sc r

theorem rdCount_elements (rd : List Nat → Except SerErr (α × List Nat))
    (f : α → List Nat) (xs : List α) (r : List Nat)
    (h : ∀ x ∈ xs, ∀ r2, rd (f x ++ r2) = .ok (x, r2)) :
    rdCount rd xs.length ((xs.map f).flatten ++ r) = .ok (xs, r) := by
  induction xs with
  | nil => simp [rdCount]
  | cons x tl ih =>
    have h2 := ih (fun y hy r2 => h y (List.mem_cons_of_mem x hy) r2)
    simp only [List.length_cons, List.map_cons, List.flatten, rdCount, List.append_assoc]
    simp only [h x (List.mem_cons_self x tl), h2]

theorem rdVec_serVec (rd : List Nat → Except SerErr (α × List Nat))
    (f : α → List Nat) (xs : List α) (r : List Nat)
    (hlen : xs.length < 18446744073709551616)
    (h : ∀ x ∈ xs, ∀ r2, rd (f x ++ r2) = .ok (x, r2)) :
    rdVec rd (serVec f xs ++ r) = .ok (xs, r) := by
  unfold rdVec serVec
  rw [List.append_assoc, readCompactSize_write xs.length _ hlen]
  exact rdCount_elements rd f xs r h

/-! Data model (transaction.h).  The memory-only, never-serialized and
never-compared `interest` field of CTxOut is not modelled; the spec
data model likewise omits it. -/

/-- Overwinter version group id (transaction.h line 320). -/
def OVERWINTER_VERSION_GROUP_ID : Nat := 0x03C48270

/-- Modelled from the spec: ZC_NUM_JS_INPUTS and ZC_NUM_JS_OUTPUTS are
fixed compile-time constants (both 2 in the Zcash tree this core
builds on, which is outside the excerpt); a fixed-size array of two
256-bit values is modelled as a pair. -/
def ZC_NUM_JS_INPUTS : Nat := 2

/-- Modelled from the spec: number of shielded outputs per JoinSplit. -/
def ZC_NUM_JS_OUTPUTS : Nat := 2

/-- Modelled from the spec: byte size of one note-encryption
ciphertext, a fixed-length encrypted record (ZCNoteEncryption is
outside the excerpt). -/
def ZC_NOTECIPHERTEXT_SIZE : Nat := 601

/-- Modelled from the spec: byte size of the opaque fixed-size
zk-SNARK proof blob (libzcash ZCProof, outside the excerpt). -/
def ZCPROOF_SIZE : Nat := 296

/-- COutPoint: a reference to a prior output, a 256-bit transaction
hash plus a 32-bit output index. -/
structure COutPoint where
  hash : Nat
  n : Nat
deriving DecidableEq

/-- CTxIn: outpoint, unlocking script bytes, sequence number. -/
structure CTxIn where
  prevout : COutPoint
  scriptSig : List Nat
  nSequence : Nat
deriving DecidableEq

/-- CTxOut: signed 64-bit amount and locking script bytes. -/
structure CTxOut where
  nValue : Int
  scriptPubKey : List Nat
deriving DecidableEq

/-- JSDescription: a JoinSplit.  The two-element fixed arrays
(nullifiers, commitments, macs, ciphertexts) are pairs; each uint256
is a natural below 2 to the 256; each ciphertext and the proof are
naturals standing for their fixed-size byte blobs. -/
structure JSDescription where
  vpub_old : Int
  vpub_new : Int
  anchor : Nat
  nullifiers : Nat × Nat
  commitments : Nat × Nat
  ephemeralKey : Nat
  ciphertexts : Nat × Nat
  randomSeed : Nat
  macs : Nat × Nat
  proof : Nat
deriving DecidableEq

/-- COutPoint serialization: hash then index
(transaction.h lines 172-176). -/
def serOutPoint (p : COutPoint) : List Nat := ser256 p.hash ++ ser32 p.n

/-- Reading a COutPoint. -/
def rdOutPoint (s : List Nat) : Except SerErr (COutPoint × List Nat) :=
  match rd256 s with
  | .error e => .error e
  | .ok (h, s1) =>
    match rdU32 s1 with
    | .error e => .error e
    | .ok (n, r) => .ok (⟨h, n⟩, r)

/-- CTxIn serialization: prevout, scriptSig, nSequence
(transaction.h lines 220-225). -/
def serTxIn (i : CTxIn) : List Nat :=
  serOutPoint i.prevout ++ serScript i.scriptSig ++ ser32 i.nSequence

/-- Reading a CTxIn. -/
def rdTxIn (s : List Nat) : Except SerErr (CTxIn × List Nat) :=
  match rdOutPoint s with
  | .error e => .error e
  | .ok (p, s1) =>
    match rdScript s1 with
    | .error e => .error e
    | .ok (sc, s2) =>
      match rdU32 s2 with
      | .error e => .error e
      | .ok (q, r) => .ok (⟨p, sc, q⟩, r)

/-- CTxOut serialization: nValue, scriptPubKey
(transaction.h lines 265-269). -/
def serTxOut (o : CTxOut) : List Nat := ser64i o.nValue ++ serScript o.scriptPubKey

/-- Reading a CTxOut. -/
def rdTxOut (s : List Nat) : Except SerErr (CTxOut × List Nat) :=
  match rd64i s with
  | .error e => .error e
  | .ok (v, s1) =>
    match rdScript s1 with
    | .error e => .error e
    | .ok (sc, r) => .ok (⟨v, sc⟩, r)

/-- JSDescription serialization in the fixed consensus order of
transaction.h lines 124-136: vpub_old, vpub_new, anchor, nullifiers,
commitments, ephemeralKey, randomSeed, macs, proof, ciphertexts. -/
def serJS (d : JSDescription) : List Nat :=
  ser64i d.vpub_old ++ ser64i d.vpub_new ++ ser256 d.anchor
    ++ ser256 d.nullifiers.1 ++ ser256 d.nullifiers.2
    ++ ser256 d.commitments.1 ++ ser256 d.commitments.2
    ++ ser256 d.ephemeralKey ++ ser256 d.randomSeed
    ++ ser256 d.macs.1 ++ ser256 d.macs.2
    ++ serFixed ZCPROOF_SIZE d.proof
    ++ serFixed ZC_NOTECIPHERTEXT_SIZE d.ciphertexts.1
    ++ serFixed ZC_NOTECIPHERTEXT_SIZE d.ciphertexts.2

/-- Reading a JSDescription. -/
def rdJS (s : List Nat) : Except SerErr (JSDescription × List Nat) :=
  match rd64i s with
  | .error e => .error e
  | .ok (vo, s1) =>
    match rd64i s1 with
    | .error e => .error e
    | .ok (vn, s2) =>
      match rd256 s2 with
      | .error e => .error e
      | .ok (anch, s3) =>
        match rd256 s3 with
        | .error e => .error e
        | .ok (n1, s4) =>
          match rd256 s4 with
          | .error e => .error e
          | .ok (n2, s5) =>
            match rd256 s5 with
            | .error e => .error e
            | .ok (c1, s6) =>
              match rd256 s6 with
              | .error e => .error e
              | .ok (c2, s7) =>
                match rd256 s7 with
                | .error e => .error e
                | .ok (ek, s8) =>
                  match rd256 s8 with
                  | .error e => .error e
                  | .ok (rs, s9) =>
                    match rd256 s9 with
                    | .error e => .error e
                    | .ok (m1, s10) =>
                      match rd256 s10 with
                      | .error e => .error e
                      | .ok (m2, s11) =>
                        match rdFixed ZCPROOF_SIZE s11 with
                        | .error e => .error e
                        | .ok (pf, s12) =>
                          match rdFixed ZC_NOTECIPHERTEXT_SIZE s12 with
                          | .error e => .error e
                          | .ok (t1, s13) =>
                            match rdFixed ZC_NOTECIPHERTEXT_SIZE s13 with
                            | .error e => .error e
                            | .ok (t2, r) =>
                              .ok (⟨vo, vn, anch, (n1, n2), (c1, c2), ek,
                                    (t1, t2), rs, (m1, m2), pf⟩, r)

/-! Well-formedness of field values: each field holds a value
representable in its C++ machine type. -/

/-- The int64 (CAmount) range. -/
def int64Range (i : Int) : Prop :=
  -9223372036854775808 ≤ i ∧ i < 9223372036854775808

instance (i : Int) : Decidable (int64Range i) := by
  unfold int64Range; infer_instance

/-- The uint256 bound. -/
def U256 : Nat := 2 ^ 256

/-- A script buffer is a list of bytes whose length fits the
compact-size encoding. -/
def WFScript (sc : List Nat) : Prop :=
  sc.length < 18446744073709551616 ∧ ∀ b ∈ sc, b < 256

instance (sc : List Nat) : Decidable (WFScript sc) := by
  unfold WFScript; infer_instance

def WFOutPoint (p : COutPoint) : Prop := p.hash < U256 ∧ p.n < 4294967296

instance (p : COutPoint) : Decidable (WFOutPoint p) := by
  unfold WFOutPoint; infer_instance

def WFTxIn (i : CTxIn) : Prop :=
  WFOutPoint i.prevout ∧ WFScript i.scriptSig ∧ i.nSequence < 4294967296

instance (i : CTxIn) : Decidable (WFTxIn i) := by
  unfold WFTxIn; infer_instance

def WFTxOut (o : CTxOut) : Prop := int64Range o.nValue ∧ WFScript o.scriptPubKey

instance (o : CTxOut) : Decidable (WFTxOut o) := by
  unfold WFTxOut; infer_instance

def WFJS (d : JSDescription) : Prop :=
  int64Range d.vpub_old ∧ int64Range d.vpub_new ∧ d.anchor < U256
    ∧ d.nullifiers.1 < U256 ∧ d.nullifiers.2 < U256
    ∧ d.commitments.1 < U256 ∧ d.commitments.2 < U256
    ∧ d.ephemeralKey < U256 ∧ d.randomSeed < U256
    ∧ d.macs.1 < U256 ∧ d.macs.2 < U256
    ∧ d.proof < 256 ^ ZCPROOF_SIZE
    ∧ d.ciphertexts.1 < 256 ^ ZC_NOTECIPHERTEXT_SIZE
    ∧ d.ciphertexts.2 < 256 ^ ZC_NOTECIPHERTEXT_SIZE

instance (d : JSDescription) : Decidable (WFJS d) := by
  unfold WFJS; infer_instance

/-! Round-trip lemmas for the records. -/

theorem u256_eq : U256 =
    115792089237316195423570985008687907853269984665640564039457584007913129639936 := by
  unfold U256; norm_num

theorem rd256_ser256_u256 (n : Nat) (r : List Nat) (h : n < U256) :
    rd256 (ser256 n ++ r) = .ok (n, r) := by
  apply rd256_ser256
  rw [u256_eq] at h
  exact h

theorem rdOutPoint_serOutPoint (p : COutPoint) (r : List Nat) (h : WFOutPoint p) :
    rdOutPoint (serOutPoint p ++ r) = .ok (p, r) := by
  obtain ⟨h1, h2⟩ := h
  unfold rdOutPoint serOutPoint
  rw [List.append_assoc, rd256_ser256_u256 p.hash _ h1]
  simp only [rdU32_ser32 p.n r h2]

theorem rdTxIn_serTxIn (i : CTxIn) (r : List Nat) (h : WFTxIn i) :
    rdTxIn (serTxIn i ++ r) = .ok (i, r) := by
  obtain ⟨h1, h2, h3⟩ := h
  unfold rdTxIn serTxIn
  rw [List.append_assoc, List.append_assoc, rdOutPoint_serOutPoint i.prevout _ h1]
  simp only [rdScript_serScript i.scriptSig _ h2.1, rdU32_ser32 i.nSequence r h3]

theorem rdTxOut_serTxOut (o : CTxOut) (r : List Nat) (h : WFTxOut o) :
    rdTxOut (serTxOut o ++ r) = .ok (o, r) := by
  obtain ⟨⟨h1, h2⟩, h3⟩ := h
  unfold rdTxOut serTxOut
  rw [List.append_assoc, rd64i_ser64i o.nValue _ h1 h2]
  simp only [rdScript_serScript o.scriptPubKey r h3.1]

theorem rdJS_serJS (d : JSDescription) (r : List Nat) (h : WFJS d) :
    rdJS (serJS d ++ r) = .ok (d, r) := by
  obtain ⟨⟨a1, a2⟩, ⟨b1, b2⟩, hanch, hn1, hn2, hc1, hc2, hek, hrs, hm1, hm2, hpf, ht1, ht2⟩ := h
  unfold rdJS serJS
  simp only [List.append_assoc]
  rw [rd64i_ser64i d.vpub_old _ a1 a2]
  simp only [rd64i_ser64i d.vpub_new _ b1 b2,
    rd256_ser256_u256 d.anchor _ hanch,
    rd256_ser256_u256 d.nullifiers.1 _ hn1,
    rd256_ser256_u256 d.nullifiers.2 _ hn2,
    rd256_ser256_u256 d.commitments.1 _ hc1,
    rd256_ser256_u256 d.commitments.2 _ hc2,
    rd256_ser256_u256 d.ephemeralKey _ hek,
    rd256_ser256_u256 d.randomSeed _ hrs,
    rd256_ser256_u256 d.macs.1 _ hm1,
    rd256_ser256_u256 d.macs.2 _ hm2,
    rdFixed_serFixed ZCPROOF_SIZE d.proof _ hpf,
    rdFixed_serFixed ZC_NOTECIPHERTEXT_SIZE d.ciphertexts.1 _ ht1,
    rdFixed_serFixed ZC_NOTECIPHERTEXT_SIZE d.ciphertexts.2 r ht2]

/-! The transaction types and the versioned codec
(transaction.h lines 319-568). -/

/-- CMutableTransaction (transaction.h lines 502-568).  The
fixed 64-byte joinSplitSig array is a natural below 2 to the 512. -/
structure CMutableTransaction where
  fOverwintered : Bool
  nVersion : Int
  nVersionGroupId : Nat
  vin : List CTxIn
  vout : List CTxOut
  nLockTime : Nat
  nExpiryHeight : Nat
  vjoinsplit : List JSDescription
  joinSplitPubKey : Nat
  joinSplitSig : Nat
deriving DecidableEq

/-- The header written on the wire (CTransaction::GetHeader, lines
435-443, and the identical inline computation of the mutable write
path, lines 528-535): nVersion converted to uint32, with bit 31 set
when fOverwintered. -/
def packHeader (fOverwintered : Bool) (nVersion : Int) : Nat :=
  let header := toUInt32 nVersion
  if fOverwintered then header ||| (1 <<< 31) else header

/-- Unpacking the 4-byte header on the read path (lines 388-397 and
522-527): bit 31 is fOverwintered, bits 0-30 are nVersion. -/
def unpackHeader (header : Nat) : Bool × Int :=
  (header >>> 31 != 0, ((header &&& 0x7FFFFFFF : Nat) : Int))

/-- The Overwinter v3 recognizer computed by both serialization
routines (lines 403-405 and 542-544). -/
def isOverwinterV3 (fOverwintered : Bool) (nVersionGroupId : Nat) (nVersion : Int) : Bool :=
  fOverwintered && (nVersionGroupId == OVERWINTER_VERSION_GROUP_ID) && (nVersion == 3)

/-- The write direction of CMutableTransaction::SerializationOp
(lines 520-562): header, conditional versionGroupId, the format
check (which throws "Unknown transaction format" and so yields no
byte stream), vin, vout, nLockTime, conditional nExpiryHeight, and
for version at least 2 the JoinSplit section, whose pubkey and
signature appear exactly when the JoinSplit list is non-empty. -/
def encodeMut (tx : CMutableTransaction) : Except SerErr (List Nat) :=
  let ow3 := isOverwinterV3 tx.fOverwintered tx.nVersionGroupId tx.nVersion
  if tx.fOverwintered && !ow3 then .error .unknownFormat
  else
    .ok (ser32 (packHeader tx.fOverwintered tx.nVersion)
      ++ (if tx.fOverwintered then ser32 tx.nVersionGroupId else [])
      ++ serVec serTxIn tx.vin
      ++ serVec serTxOut tx.vout
      ++ ser32 tx.nLockTime
      ++ (if ow3 then ser32 tx.nExpiryHeight else [])
      ++ (if 2 ≤ tx.nVersion then
            serVec serJS tx.vjoinsplit
              ++ (if tx.vjoinsplit.length = 0 then []
                  else ser256 tx.joinSplitPubKey ++ serFixed 64 tx.joinSplitSig)
          else []))

/-- The read direction of CMutableTransaction::SerializationOp
(lines 520-562).  Fields that the given format does not carry keep
the default-constructed values (zero scalars, empty lists), as the
spec states for the zero/absent conditional fields; the
default-constructing CMutableTransaction constructor itself lives in
transaction.cpp, outside the excerpt. -/
def decodeMut (s : List Nat) : Except SerErr (CMutableTransaction × List Nat) :=
  match rdU32 s with
  | .error e => .error e
  | .ok (header, s1) =>
    let fOverwintered := (unpackHeader header).1
    let nVersion := (unpackHeader header).2
    match (if fOverwintered then rdU32 s1 else .ok (0, s1)) with
    | .error e => .error e
    | .ok (nVersionGroupId, s2) =>
      if fOverwintered && !(isOverwinterV3 fOverwintered nVersionGroupId nVersion) then
        .error .unknownFormat
      else
        match rdVec rdTxIn s2 with
        | .error e => .error e
        | .ok (vin, s3) =>
          match rdVec rdTxOut s3 with
          | .error e => .error e
          | .ok (vout, s4) =>
            match rdU32 s4 with
            | .error e => .error e
            | .ok (nLockTime, s5) =>
              match (if isOverwinterV3 fOverwintered nVersionGroupId nVersion then
                       rdU32 s5
                     else .ok (0, s5)) with
              | .error e => .error e
              | .ok (nExpiryHeight, s6) =>
                if 2 ≤ nVersion then
                  match rdVec rdJS s6 with
                  | .error e => .error e
                  | .ok (vjs, s7) =>
                    if vjs.length = 0 then
                      .ok (⟨fOverwintered, nVersion, nVersionGroupId, vin, vout,
                            nLockTime, nExpiryHeight, vjs, 0, 0⟩, s7)
                    else
                      match rd256 s7 with
                      | .error e => .error e
                      | .ok (pk, s8) =>
                        match rdFixed 64 s8 with
                        | .error e => .error e
                        | .ok (sig, r) =>
                          .ok (⟨fOverwintered, nVersion, nVersionGroupId, vin, vout,
                                nLockTime, nExpiryHeight, vjs, pk, sig⟩, r)
                else
                  .ok (⟨fOverwintered, nVersion, nVersionGroupId, vin, vout,
                        nLockTime, nExpiryHeight, [], 0, 0⟩, s6)

/-- CTransaction (transaction.h lines 328-499): the same fields plus
the memory-only cached identity hash. -/
structure CTransaction where
  fOverwintered : Bool
  nVersion : Int
  nVersionGroupId : Nat
  vin : List CTxIn
  vout : List CTxOut
  nLockTime : Nat
  nExpiryHeight : Nat
  vjoinsplit : List JSDescription
  joinSplitPubKey : Nat
  joinSplitSig : Nat
  hash : Nat
deriving DecidableEq

/-- The field content of a CTransaction as a mutable transaction
(the CMutableTransaction(const CTransaction) conversion). -/
def CTransaction.toMut (t : CTransaction) : CMutableTransaction :=
  ⟨t.fOverwintered, t.nVersion, t.nVersionGroupId, t.vin, t.vout,
   t.nLockTime, t.nExpiryHeight, t.vjoinsplit, t.joinSplitPubKey, t.joinSplitSig⟩

/-- The identity hash of a mutable transaction: the double-hash
digest of the canonical serialization, modelled by an abstract digest
function H over the encoded byte stream producing a uint256 (hash.h
and CMutableTransaction::GetHash live outside the excerpt; the spec
defines the id as a one-way digest of the canonical encoding). -/
def txidMut (H : List Nat → Nat) (m : CMutableTransaction) : Nat :=
  match encodeMut m with
  | .ok s => H s % U256
  | .error _ => 0

/-- Freezing a mutable transaction into a CTransaction computes the
identity hash exactly once (the CTransaction(const
CMutableTransaction) constructor calling UpdateHash). -/
def CTransaction.ofMut (H : List Nat → Nat) (m : CMutableTransaction) : CTransaction :=
  ⟨m.fOverwintered, m.nVersion, m.nVersionGroupId, m.vin, m.vout,
   m.nLockTime, m.nExpiryHeight, m.vjoinsplit, m.joinSplitPubKey, m.joinSplitSig,
   txidMut H m⟩

/-- The write direction of CTransaction::SerializationOp (lines
386-425), whose writes are field-for-field identical to the mutable
write path. -/
def encodeTx (t : CTransaction) : Except SerErr (List Nat) := encodeMut t.toMut

/-- The read direction of CTransaction::SerializationOp (lines
386-425): the identical reads, followed by UpdateHash, which caches
the identity hash of the structure just decoded. -/
def decodeTx (H : List Nat → Nat) (s : List Nat) :
    Except SerErr (CTransaction × List Nat) :=
  match decodeMut s with
  | .error e => .error e
  | .ok (m, r) => .ok (CTransaction.ofMut H m, r)

/-- CTransaction equality (lines 466-469): it compares only the
cached identity hashes. -/
def CTransaction.eqOp (a b : CTransaction) : Bool := a.hash == b.hash

/-! Dust threshold (transaction.h lines 284-304).  The script
capability (CScript::IsUnspendable) and the fee-rate capability
(CFeeRate::GetFee) are external collaborators outside the excerpt;
per the spec they are an opaque predicate on script bytes and an
opaque size-to-amount function, passed in explicitly. -/

/-- Modelled from the spec: the external fee-rate capability, an
amount per serialized size. -/
structure CFeeRate where
  GetFee : Nat → Int

/-- The serialized size of an output, GetSerializeSize(SER_DISK, 0):
the length of its wire encoding. -/
def txoutSerSize (o : CTxOut) : Nat := (serTxOut o).length

/-- CTxOut::GetDustThreshold (lines 284-299): zero for a script the
capability flags unspendable, otherwise three times the fee on the
serialized size plus 148. -/
def GetDustThreshold (isUnspendable : List Nat → Bool) (minRelayTxFee : CFeeRate)
    (o : CTxOut) : Int :=
  if isUnspendable o.scriptPubKey then 0
  else 3 * minRelayTxFee.GetFee (txoutSerSize o + 148)

/-- CTxOut::IsDust (lines 301-304): value strictly below the dust
threshold. -/
def IsDust (isUnspendable : List Nat → Bool) (minRelayTxFee : CFeeRate)
    (o : CTxOut) : Bool :=
  o.nValue < GetDustThreshold isUnspendable minRelayTxFee o

/-! Proof-of-stake eligibility hash (transaction.h lines 476-496).
CVerusHashWriter, arith_uint256 and uint256S are outside the excerpt;
per the spec the hash is a chain-specific construction fed the fields
in a fixed order and finalized to a 256-bit digest, and the division
is 256-bit unsigned truncating division whose zero-divisor case is a
reported error, never undefined behavior. -/

/-- Arithmetic errors of the external 256-bit integer type. -/
inductive ArithErr where
  | divByZero
deriving DecidableEq

/-- Modelled from the spec: arith_uint256 truncating division, a
reported error on a zero divisor rather than undefined behavior. -/
def arithDiv (a b : Nat) : Except ArithErr Nat :=
  if b = 0 then .error .divByZero else .ok (a / b)

/-- The fixed sentinel digest uint256S with sixty-four hex digits ff
followed by thirty-one times 0f (line 493). -/
def VERUS_POS_INVALID : Nat :=
  0xff0f0f0f0f0f0f0f0f0f0f0f0f0f0f0f0f0f0f0f0f0f0f0f0f0f0f0f0f0f0f0f

/-- CTransaction::_GetVerusPOSHash (lines 477-487).  The writer
absorbs, in order: the network magic, the past block hash, the
height, the txid, and the output number; the value parameter is
accepted but never absorbed.  H is the digest function of the
external CVerusHashWriter, producing a uint256. -/
def _GetVerusPOSHash (H : List Nat → Nat) (ASSETCHAINS_MAGIC : Nat)
    (txid : Nat) (voutNum : Int) (height : Int) (pastHash : Nat)
    (value : Int) : Nat :=
  H (ser32 ASSETCHAINS_MAGIC ++ ser256 pastHash ++ ser32 (toUInt32 height)
      ++ ser256 txid ++ ser32 (toUInt32 voutNum)) % U256

/-- CTransaction::GetVerusPOSHash (lines 489-496).  The signed
voutNum is compared against the output count after the C++ implicit
conversion to the unsigned size type; out of range yields the
sentinel, otherwise the digest is divided by the claimed output value
converted to uint64. -/
def GetVerusPOSHash (H : List Nat → Nat) (ASSETCHAINS_MAGIC : Nat)
    (t : CTransaction) (voutNum : Int) (height : Int) (pastHash : Nat) :
    Except ArithErr Nat :=
  let txid := t.hash
  if h : t.vout.length ≤ toUInt64 voutNum then .ok VERUS_POS_INVALID
  else
    let o := t.vout.get ⟨toUInt64 voutNum, Nat.lt_of_not_le h⟩
    arithDiv
      (_GetVerusPOSHash H ASSETCHAINS_MAGIC txid voutNum height pastHash
        (toInt64 (toUInt64 o.nValue)))
      (toUInt64 o.nValue)

/-! Well-formedness of a whole transaction: the structurally valid
combinations of overwintered flag, version and JoinSplit presence
the spec round-trip property quantifies over, together with each
field holding a value representable in its machine type.  Fields a
format does not carry must hold the default values a decode of that
format produces. -/

def WFtx (tx : CMutableTransaction) : Prop :=
  ((tx.fOverwintered = false ∧ (tx.nVersion = 1 ∨ tx.nVersion = 2)
      ∧ tx.nVersionGroupId = 0 ∧ tx.nExpiryHeight = 0)
    ∨ (tx.fOverwintered = true ∧ tx.nVersion = 3
      ∧ tx.nVersionGroupId = OVERWINTER_VERSION_GROUP_ID
      ∧ tx.nExpiryHeight < 4294967296))
  ∧ tx.nLockTime < 4294967296
  ∧ tx.vin.length < 18446744073709551616
  ∧ tx.vout.length < 18446744073709551616
  ∧ tx.vjoinsplit.length < 18446744073709551616
  ∧ (∀ i ∈ tx.vin, WFTxIn i)
  ∧ (∀ o ∈ tx.vout, WFTxOut o)
  ∧ (∀ d ∈ tx.vjoinsplit, WFJS d)
  ∧ tx.joinSplitPubKey < U256
  ∧ tx.joinSplitSig < 2 ^ 512
  ∧ (tx.nVersion < 2 → tx.vjoinsplit = [])
  ∧ (tx.vjoinsplit = [] → tx.joinSplitPubKey = 0 ∧ tx.joinSplitSig = 0)

instance (tx : CMutableTransaction) : Decidable (WFtx tx) := by
  unfold WFtx; infer_instance

/-! Header packing lemmas. -/

theorem lor_two_pow_of_lt {a k : Nat} (h : a < 2 ^ k) : a ||| 2 ^ k = a + 2 ^ k := by
  apply Nat.eq_of_testBit_eq
  intro i
  rcases Nat.lt_trichotomy i k with hik | hik | hik
  · rw [Nat.testBit_or, Nat.testBit_two_pow_of_ne (by omega), Nat.add_comm,
      Nat.testBit_two_pow_add_gt hik]
    simp
  · subst hik
    rw [Nat.testBit_or, Nat.testBit_two_pow_self, Nat.add_comm,
      Nat.testBit_two_pow_add_eq, Nat.testBit_lt_two_pow h]
    simp
  · have hle : 2 ^ (k + 1) ≤ 2 ^ i := Nat.pow_le_pow_right (by norm_num) (by omega)
    have hklt : (2 : Nat) ^ k < 2 ^ i := by
      have := Nat.pow_lt_pow_right (a := 2) (by norm_num) hik
      exact this
    rw [Nat.testBit_or, Nat.testBit_two_pow_of_ne (by omega),
      Nat.testBit_lt_two_pow (by omega),
      Nat.testBit_lt_two_pow (show a + 2 ^ k < 2 ^ i by
        have : a + 2 ^ k < 2 ^ (k + 1) := by
          rw [Nat.pow_succ]; omega
        omega)]
    simp

theorem toUInt32_lt (i : Int) : toUInt32 i < 4294967296 := by
  unfold toUInt32; omega

theorem toUInt32_small {v : Int} (h0 : 0 ≤ v) (h1 : v < 4294967296) :
    (toUInt32 v : Int) = v := by
  unfold toUInt32; omega

theorem packHeader_lt (f : Bool) (v : Int) : packHeader f v < 4294967296 := by
  have h1 : toUInt32 v < 4294967296 := toUInt32_lt v
  have e : (4294967296 : Nat) = 2 ^ 32 := by norm_num
  unfold packHeader
  cases f
  · simpa using h1
  · simp only [Bool.ite_eq_true_distrib]
    rw [e] at h1 ⊢
    exact Nat.or_lt_two_pow h1 (by norm_num [Nat.shiftLeft_eq])

/-- Unpacking the packed header recovers the flag and the version for
every version in the valid non-negative below-2-to-31 range. -/
theorem unpackHeader_packHeader (f : Bool) (v : Int)
    (h0 : 0 ≤ v) (h1 : v < 2147483648) :
    unpackHeader (packHeader f v) = (f, v) := by
  have hv : (toUInt32 v : Int) = v := toUInt32_small h0 (by omega)
  have hvn : toUInt32 v < 2 ^ 31 := by
    have : (2 : Nat) ^ 31 = 2147483648 := by norm_num
    unfold toUInt32 at *
    omega
  have hmask : (2147483647 : Nat) = 2 ^ 31 - 1 := by norm_num
  have hshl : (1 <<< 31 : Nat) = 2 ^ 31 := by norm_num [Nat.shiftLeft_eq]
  unfold packHeader unpackHeader
  cases f
  · simp only [Bool.false_eq_true, if_false]
    rw [Nat.shiftRight_eq_div_pow, Nat.div_eq_of_lt hvn]
    have : toUInt32 v &&& 2147483647 = toUInt32 v := by
      rw [hmask, Nat.and_pow_two_sub_one_eq_mod, Nat.mod_eq_of_lt hvn]
    rw [this, hv]
    simp
  · simp only [if_true]
    rw [hshl, lor_two_pow_of_lt hvn]
    have hs : (toUInt32 v + 2 ^ 31) >>> 31 = 1 := by
      rw [Nat.shiftRight_eq_div_pow]
      omega
    have hm : toUInt32 v + 2 ^ 31 &&& 2147483647 = toUInt32 v := by
      rw [hmask, Nat.and_pow_two_sub_one_eq_mod]
      omega
    rw [hs, hm, hv]
    simp

/-! Round-trip wrappers quantified over the trailing stream, in the
form simp can chain through the decoder. -/

theorem rdU32_ser32RT (n : Nat) (h : n < 4294967296) :
    ∀ r, rdU32 (ser32 n ++ r) = .ok (n, r) :=
  fun r => rdU32_ser32 n r h

theorem rd256RT (n : Nat) (h : n < U256) :
    ∀ r, rd256 (ser256 n ++ r) = .ok (n, r) :=
  fun r => rd256_ser256_u256 n r h

theorem rdFixed64RT (n : Nat) (h : n < 2 ^ 512) :
    ∀ r, rdFixed 64 (serFixed 64 n ++ r) = .ok (n, r) := by
  have e : (256 : Nat) ^ 64 = 2 ^ 512 := by
    rw [show (256 : Nat) = 2 ^ 8 by norm_num, ← pow_mul]
  exact fun r => rdFixed_serFixed 64 n r (by omega)

theorem rdVecTxInRT (xs : List CTxIn) (hlen : xs.length < 18446744073709551616)
    (hall : ∀ i ∈ xs, WFTxIn i) :
    ∀ r, rdVec rdTxIn (serVec serTxIn xs ++ r) = .ok (xs, r) :=
  fun r => rdVec_serVec rdTxIn serTxIn xs r hlen
    (fun i hi r2 => rdTxIn_serTxIn i r2 (hall i hi))

theorem rdVecTxOutRT (xs : List CTxOut) (hlen : xs.length < 18446744073709551616)
    (hall : ∀ o ∈ xs, WFTxOut o) :
    ∀ r, rdVec rdTxOut (serVec serTxOut xs ++ r) = .ok (xs, r) :=
  fun r => rdVec_serVec rdTxOut serTxOut xs r hlen
    (fun o ho r2 => rdTxOut_serTxOut o r2 (hall o ho))

theorem rdVecJSRT (xs : List JSDescription) (hlen : xs.length < 18446744073709551616)
    (hall : ∀ d ∈ xs, WFJS d) :
    ∀ r, rdVec rdJS (serVec serJS xs ++ r) = .ok (xs, r) :=
  fun r => rdVec_serVec rdJS serJS xs r hlen
    (fun d hd r2 => rdJS_serJS d r2 (hall d hd))

/-- The encode-decode round trip on mutable transactions: every
structurally valid transaction encodes successfully, and decoding the
encoded stream (with any trailing data) returns the transaction
field-for-field. -/
theorem roundtrip_mut (tx : CMutableTransaction) (hwf : WFtx tx) :
    ∃ s, encodeMut tx = .ok s ∧ ∀ r, decodeMut (s ++ r) = .ok (tx, r) := by
  obtain ⟨f, v, gid, vin, vout, lock, exp, vjs, pk, sig⟩ := tx
  unfold WFtx at hwf
  dsimp only at hwf
  obtain ⟨hfmt, hlock, hvinL, hvoutL, hvjsL, hwin, hwout, hwjs, hpk, hsig, hv2, hempty⟩ := hwf
  have hinRT := rdVecTxInRT vin hvinL hwin
  have houtRT := rdVecTxOutRT vout hvoutL hwout
  have hjsRT := rdVecJSRT vjs hvjsL hwjs
  have hlockRT := rdU32_ser32RT lock hlock
  have hpkRT := rd256RT pk hpk
  have hsigRT := rdFixed64RT sig hsig
  rcases hfmt with ⟨hf, hv, hgid, hexp⟩ | ⟨hf, hv, hgid, hexp⟩
  · subst hf hgid hexp
    have hhdr1 := rdU32_ser32RT (packHeader false 1) (packHeader_lt false 1)
    have hhdr2 := rdU32_ser32RT (packHeader false 2) (packHeader_lt false 2)
    have hup1 := unpackHeader_packHeader false 1 (by norm_num) (by norm_num)
    have hup2 := unpackHeader_packHeader false 2 (by norm_num) (by norm_num)
    rcases hv with hv | hv
    · subst hv
      have hjs : vjs = [] := hv2 (by norm_num)
      subst hjs
      obtain ⟨hpk0, hsig0⟩ := hempty rfl
      subst hpk0 hsig0
      refine ⟨ser32 (packHeader false 1) ++ serVec serTxIn vin ++ serVec serTxOut vout
        ++ ser32 lock, ?_, fun r => ?_⟩
      · simp [encodeMut, isOverwinterV3, show ¬((2:Int) ≤ 1) by norm_num]
      · simp [decodeMut, hhdr1, hup1, isOverwinterV3, hinRT, houtRT, hlockRT,
          show ¬((2:Int) ≤ 1) by norm_num]
    · subst hv
      by_cases hjs : vjs = []
      · subst hjs
        obtain ⟨hpk0, hsig0⟩ := hempty rfl
        subst hpk0 hsig0
        refine ⟨ser32 (packHeader false 2) ++ serVec serTxIn vin ++ serVec serTxOut vout
          ++ ser32 lock ++ serVec serJS [], ?_, fun r => ?_⟩
        · simp [encodeMut, isOverwinterV3, show (2:Int) ≤ 2 by norm_num]
        · simp [decodeMut, hhdr2, hup2, isOverwinterV3, hinRT, houtRT, hlockRT,
            hjsRT, show (2:Int) ≤ 2 by norm_num]
      · have hne0 : ¬(vjs.length = 0) := by simpa [List.length_eq_zero] using hjs
        refine ⟨ser32 (packHeader false 2) ++ serVec serTxIn vin ++ serVec serTxOut vout
          ++ ser32 lock ++ serVec serJS vjs ++ ser256 pk ++ serFixed 64 sig,
          ?_, fun r => ?_⟩
        · simp [encodeMut, isOverwinterV3, show (2:Int) ≤ 2 by norm_num, hne0]
        · simp [decodeMut, hhdr2, hup2, isOverwinterV3, hinRT, houtRT, hlockRT,
            hjsRT, hpkRT, hsigRT, show (2:Int) ≤ 2 by norm_num, hne0]
  · subst hf hgid
    subst hv
    have hhdr3 := rdU32_ser32RT (packHeader true 3) (packHeader_lt true 3)
    have hup3 := unpackHeader_packHeader true 3 (by norm_num) (by norm_num)
    have hgidRT := rdU32_ser32RT OVERWINTER_VERSION_GROUP_ID
      (by norm_num [OVERWINTER_VERSION_GROUP_ID])
    have hexpRT := rdU32_ser32RT exp hexp
    by_cases hjs : vjs = []
    · subst hjs
      obtain ⟨hpk0, hsig0⟩ := hempty rfl
      subst hpk0 hsig0
      refine ⟨ser32 (packHeader true 3) ++ ser32 OVERWINTER_VERSION_GROUP_ID
        ++ serVec serTxIn vin ++ serVec serTxOut vout ++ ser32 lock ++ ser32 exp
        ++ serVec serJS [], ?_, fun r => ?_⟩
      · simp [encodeMut, isOverwinterV3, show (2:Int) ≤ 3 by norm_num]
      · simp [decodeMut, hhdr3, hup3, hgidRT, isOverwinterV3, hinRT, houtRT,
          hlockRT, hexpRT, hjsRT, show (2:Int) ≤ 3 by norm_num]
    · have hne0 : ¬(vjs.length = 0) := by simpa [List.length_eq_zero] using hjs
      refine ⟨ser32 (packHeader true 3) ++ ser32 OVERWINTER_VERSION_GROUP_ID
        ++ serVec serTxIn vin ++ serVec serTxOut vout ++ ser32 lock ++ ser32 exp
        ++ serVec serJS vjs ++ ser256 pk ++ serFixed 64 sig, ?_, fun r => ?_⟩
      · simp [encodeMut, isOverwinterV3, show (2:Int) ≤ 3 by norm_num, hne0]
      · simp [decodeMut, hhdr3, hup3, hgidRT, isOverwinterV3, hinRT, houtRT,
          hlockRT, hexpRT, hjsRT, hpkRT, hsigRT, show (2:Int) ≤ 3 by norm_num, hne0]

/-! Concrete sample values used by the witnesses. -/

def sampleTxIn : CTxIn := ⟨⟨7, 0⟩, [81], 4294967295⟩

def sampleTxOut : CTxOut := ⟨50, [118]⟩

def sampleJS : JSDescription := ⟨0, 0, 0, (0, 0), (0, 0), 0, (0, 0), 0, (0, 0), 0⟩

/-- A structurally valid Overwinter v3 transaction. -/
def sampleMutTx : CMutableTransaction :=
  ⟨true, 3, OVERWINTER_VERSION_GROUP_ID, [sampleTxIn], [sampleTxOut], 11, 22, [], 0, 0⟩

/-- A sample immutable transaction with one output of value 50 and a
cached hash of 9. -/
def sampleCTx : CTransaction :=
  ⟨false, 1, 0, [sampleTxIn], [sampleTxOut], 11, 0, [], 0, 0, 9⟩

/-- C8: for every version value in its valid range (non-negative,
below 2 to the 31) and both values of the overwintered flag,
unpacking the 4-byte header produced by packing them returns exactly
the original pair. -/
theorem C8_header_packing (f : Bool) (v : Int)
    (h0 : 0 ≤ v) (h1 : v < 2147483648) :
    unpackHeader (packHeader f v) = (f, v) :=
  unpackHeader_packHeader f v h0 h1

theorem C8_header_packing_witness :
    (0 : Int) ≤ 7 ∧ (7 : Int) < 2147483648
      ∧ unpackHeader (packHeader true 7) = (true, 7) :=
  ⟨by norm_num, by norm_num, C8_header_packing true 7 (by norm_num) (by norm_num)⟩

/-- C9: CTransaction equality compares only the cached identity hash,
and there are transactions differing in every other respect that
nevertheless compare equal. -/
theorem C9_eq_is_hash_only :
    (∀ a b : CTransaction, CTransaction.eqOp a b = true ↔ a.hash = b.hash)
    ∧ (∃ a b : CTransaction, a.nVersion ≠ b.nVersion ∧ a.vin ≠ b.vin
        ∧ a.vout ≠ b.vout ∧ CTransaction.eqOp a b = true) := by
  constructor
  · intro a b
    unfold CTransaction.eqOp
    exact beq_iff_eq
  · refine ⟨⟨false, 1, 0, [], [], 0, 0, [], 0, 0, 42⟩,
      ⟨false, 2, 0, [sampleTxIn], [sampleTxOut], 5, 0, [], 0, 0, 42⟩, ?_, ?_, ?_, rfl⟩
    · decide
    · decide
    · decide

/-- C10: the unknown-transaction-format check also runs in the encode
direction: an in-memory transaction, immutable or mutable, whose
overwintered flag is set but whose versionGroupId/version pair is not
the Overwinter v3 combination serializes to the format error and no
byte stream. -/
theorem C10_encode_rejection :
    (∀ tx : CMutableTransaction, tx.fOverwintered = true →
      (tx.nVersionGroupId ≠ OVERWINTER_VERSION_GROUP_ID ∨ tx.nVersion ≠ 3) →
      encodeMut tx = .error .unknownFormat)
    ∧ (∀ t : CTransaction, t.fOverwintered = true →
      (t.nVersionGroupId ≠ OVERWINTER_VERSION_GROUP_ID ∨ t.nVersion ≠ 3) →
      encodeTx t = .error .unknownFormat) := by
  have hmut : ∀ tx : CMutableTransaction, tx.fOverwintered = true →
      (tx.nVersionGroupId ≠ OVERWINTER_VERSION_GROUP_ID ∨ tx.nVersion ≠ 3) →
      encodeMut tx = .error .unknownFormat := by
    intro tx hf hbad
    unfold encodeMut
    have how : isOverwinterV3 tx.fOverwintered tx.nVersionGroupId tx.nVersion = false := by
      rcases hbad with hb | hb <;> simp [isOverwinterV3, hb]
    rw [how]
    simp [hf]
  exact ⟨hmut, fun t hf hbad => hmut t.toMut hf hbad⟩

theorem C10_encode_rejection_witness :
    ((⟨true, 3, 5, [], [], 0, 0, [], 0, 0⟩ : CMutableTransaction).fOverwintered = true
      ∧ ((⟨true, 3, 5, [], [], 0, 0, [], 0, 0⟩ : CMutableTransaction).nVersionGroupId
            ≠ OVERWINTER_VERSION_GROUP_ID
          ∨ (⟨true, 3, 5, [], [], 0, 0, [], 0, 0⟩ : CMutableTransaction).nVersion ≠ 3)
      ∧ encodeMut ⟨true, 3, 5, [], [], 0, 0, [], 0, 0⟩ = .error .unknownFormat)
    ∧ ((⟨true, 2, OVERWINTER_VERSION_GROUP_ID, [], [], 0, 0, [], 0, 0, 1⟩ :
          CTransaction).fOverwintered = true
      ∧ encodeTx ⟨true, 2, OVERWINTER_VERSION_GROUP_ID, [], [], 0, 0, [], 0, 0, 1⟩
          = .error .unknownFormat) :=
  ⟨⟨rfl, Or.inl (by decide),
     C10_encode_rejection.1 ⟨true, 3, 5, [], [], 0, 0, [], 0, 0⟩ rfl (Or.inl (by decide))⟩,
   ⟨rfl,
     C10_encode_rejection.2 ⟨true, 2, OVERWINTER_VERSION_GROUP_ID, [], [], 0, 0, [], 0, 0, 1⟩
       rfl (Or.inr (by decide))⟩⟩

/-- C5: an output index that is out of range after the C++ signed to
unsigned conversion yields the fixed maximal sentinel digest, never a
failure, regardless of the hash function, the chain magic, the
transaction, the height, and the prior block hash. -/
theorem C5_out_of_range_sentinel (H : List Nat → Nat) (magic : Nat)
    (t : CTransaction) (voutNum height : Int) (pastHash : Nat)
    (h : t.vout.length ≤ toUInt64 voutNum) :
    GetVerusPOSHash H magic t voutNum height pastHash = .ok VERUS_POS_INVALID := by
  unfold GetVerusPOSHash
  rw [dif_pos h]

theorem C5_out_of_range_sentinel_witness :
    sampleCTx.vout.length ≤ toUInt64 1
      ∧ GetVerusPOSHash (fun l => l.length) 7 sampleCTx 1 5 3 = .ok VERUS_POS_INVALID :=
  ⟨by decide, C5_out_of_range_sentinel (fun l => l.length) 7 sampleCTx 1 5 3 (by decide)⟩

/-- C4: for an in-range output index the stake hash feeds, in order,
the chain magic, the prior block hash, the height, the txid, and the
output index (never the claimed value), and the result is that digest
truncating-divided by the claimed value of the selected output taken
as an unsigned 64-bit integer. -/
theorem C4_poshash_structure (H : List Nat → Nat) (magic : Nat)
    (t : CTransaction) (voutNum height : Int) (pastHash : Nat)
    (h : toUInt64 voutNum < t.vout.length) :
    GetVerusPOSHash H magic t voutNum height pastHash
      = arithDiv
          (H (ser32 magic ++ ser256 pastHash ++ ser32 (toUInt32 height)
              ++ ser256 t.hash ++ ser32 (toUInt32 voutNum)) % U256)
          (toUInt64 (t.vout.get ⟨toUInt64 voutNum, h⟩).nValue)
    ∧ (∀ v1 v2 : Int,
        _GetVerusPOSHash H magic t.hash voutNum height pastHash v1
          = _GetVerusPOSHash H magic t.hash voutNum height pastHash v2) := by
  constructor
  · unfold GetVerusPOSHash
    rw [dif_neg (by omega)]
    rfl
  · intro v1 v2
    rfl

theorem C4_poshash_structure_witness :
    toUInt64 0 < sampleCTx.vout.length
      ∧ GetVerusPOSHash (fun l => l.length) 7 sampleCTx 0 5 3
          = arithDiv
              ((fun l => l.length)
                  (ser32 7 ++ ser256 3 ++ ser32 (toUInt32 5)
                    ++ ser256 sampleCTx.hash ++ ser32 (toUInt32 0)) % U256)
              (toUInt64 (sampleCTx.vout.get ⟨toUInt64 0, by decide⟩).nValue) :=
  ⟨by decide,
   (C4_poshash_structure (fun l => l.length) 7 sampleCTx 0 5 3 (by decide)).1⟩

/-- C6: when the claimed value of the selected in-range output is a
positive int64, the divisor is non-zero and the stake hash returns a
digest; and a zero divisor is a reported division error, never
undefined behavior. -/
theorem C6_division_safety (H : List Nat → Nat) (magic : Nat)
    (t : CTransaction) (voutNum height : Int) (pastHash : Nat)
    (h : toUInt64 voutNum < t.vout.length)
    (hpos : 0 < (t.vout.get ⟨toUInt64 voutNum, h⟩).nValue)
    (hrange : (t.vout.get ⟨toUInt64 voutNum, h⟩).nValue < 9223372036854775808) :
    toUInt64 (t.vout.get ⟨toUInt64 voutNum, h⟩).nValue ≠ 0
    ∧ (∃ q, GetVerusPOSHash H magic t voutNum height pastHash = .ok q)
    ∧ (∀ a, arithDiv a 0 = .error .divByZero) := by
  have hgen : ∀ w : Int, 0 < w → w < 9223372036854775808 → toUInt64 w ≠ 0 := by
    intro w h1 h2
    unfold toUInt64
    omega
  have hnz : toUInt64 (t.vout.get ⟨toUInt64 voutNum, h⟩).nValue ≠ 0 :=
    hgen _ hpos hrange
  have key : ∀ (a b : Nat), b ≠ 0 → ∃ q, arithDiv a b = .ok q := by
    intro a b hb
    exact ⟨a / b, by unfold arithDiv; rw [if_neg hb]⟩
  refine ⟨hnz, ?_, fun a => rfl⟩
  unfold GetVerusPOSHash
  rw [dif_neg (by omega)]
  exact key _ _ hnz

theorem C6_division_safety_witness :
    toUInt64 0 < sampleCTx.vout.length
      ∧ (0 : Int) < 50 ∧ (50 : Int) < 9223372036854775808
      ∧ toUInt64 (sampleCTx.vout.get ⟨toUInt64 0, by decide⟩).nValue ≠ 0
      ∧ (∃ q, GetVerusPOSHash (fun l => l.length) 7 sampleCTx 0 5 3 = .ok q) := by
  have h := C6_division_safety (fun l => l.length) 7 sampleCTx 0 5 3
    (by decide) (by decide) (by decide)
  exact ⟨by decide, by norm_num, by norm_num, h.1, h.2.1⟩

/-- C1: for every structurally valid transaction (every valid
combination of overwintered flag, Sprout v1/v2 or Overwinter v3
version, and JoinSplit presence) the codec round trips: encoding
succeeds, decoding the produced bytes returns the transaction
field-for-field through both the mutable and the immutable codec, and
the identity hash of the decoded copy equals that of the original. -/
theorem C1_roundtrip (H : List Nat → Nat) (tx : CMutableTransaction)
    (hwf : WFtx tx) :
    ∃ s, encodeMut tx = .ok s
      ∧ decodeMut s = .ok (tx, [])
      ∧ encodeTx (CTransaction.ofMut H tx) = .ok s
      ∧ decodeTx H s = .ok (CTransaction.ofMut H tx, [])
      ∧ ∀ t2 r, decodeTx H s = .ok (t2, r) →
          t2.hash = (CTransaction.ofMut H tx).hash := by
  obtain ⟨s, henc, hdec⟩ := roundtrip_mut tx hwf
  have hd := hdec []
  rw [List.append_nil] at hd
  refine ⟨s, henc, hd, henc, ?_, ?_⟩
  · unfold decodeTx
    rw [hd]
  · intro t2 r ht
    unfold decodeTx at ht
    rw [hd] at ht
    simp only [Except.ok.injEq, Prod.mk.injEq] at ht
    rw [← ht.1]

set_option maxRecDepth 16384 in
theorem C1_roundtrip_witness :
    WFtx sampleMutTx
    ∧ (∃ s, encodeMut sampleMutTx = .ok s
        ∧ decodeMut s = .ok (sampleMutTx, [])
        ∧ encodeTx (CTransaction.ofMut (fun l => l.length) sampleMutTx) = .ok s
        ∧ decodeTx (fun l => l.length) s
            = .ok (CTransaction.ofMut (fun l => l.length) sampleMutTx, [])
        ∧ ∀ t2 r, decodeTx (fun l => l.length) s = .ok (t2, r) →
            t2.hash = (CTransaction.ofMut (fun l => l.length) sampleMutTx).hash) :=
  ⟨by decide, C1_roundtrip (fun l => l.length) sampleMutTx (by decide)⟩

/-- C2: every byte stream whose 4-byte header has bit 31 set and
whose next four bytes read a versionGroupId, with the pair not being
the Overwinter v3 combination, fails to decode with the unknown
transaction format error, through both the mutable and the immutable
codec, producing no transaction. -/
theorem C2_format_error (H : List Nat → Nat) (s s1 s2 : List Nat)
    (header gid : Nat)
    (h1 : rdU32 s = .ok (header, s1))
    (hbit : header >>> 31 ≠ 0)
    (h2 : rdU32 s1 = .ok (gid, s2))
    (hbad : gid ≠ OVERWINTER_VERSION_GROUP_ID
      ∨ ((header &&& 2147483647 : Nat) : Int) ≠ 3) :
    decodeMut s = .error .unknownFormat
      ∧ decodeTx H s = .error .unknownFormat := by
  have hb : ((header >>> 31 != 0) : Bool) = true := by
    simpa [bne_iff_ne] using hbit
  have how : isOverwinterV3 true gid ((header &&& 2147483647 : Nat) : Int) = false := by
    rcases hbad with hb2 | hb2 <;> simp [isOverwinterV3, hb2]
  have hmut : decodeMut s = .error .unknownFormat := by
    unfold decodeMut
    rw [h1]
    simp only [unpackHeader, hb, if_true, h2, how, Bool.not_false, Bool.and_true,
      Bool.and_self, if_true]
  exact ⟨hmut, by unfold decodeTx; rw [hmut]⟩

theorem C2_format_error_witness :
    rdU32 [3, 0, 0, 128, 0, 0, 0, 0] = .ok (2147483651, [0, 0, 0, 0])
    ∧ (2147483651 : Nat) >>> 31 ≠ 0
    ∧ (0 : Nat) ≠ OVERWINTER_VERSION_GROUP_ID
    ∧ decodeMut [3, 0, 0, 128, 0, 0, 0, 0] = .error .unknownFormat
    ∧ decodeTx (fun l => l.length) [3, 0, 0, 128, 0, 0, 0, 0] = .error .unknownFormat := by
  have h := C2_format_error (fun l => l.length) [3, 0, 0, 128, 0, 0, 0, 0]
    [0, 0, 0, 0] [] 2147483651 0 rfl (by decide) rfl (Or.inl (by decide))
  exact ⟨rfl, by decide, by decide, h.1, h.2⟩

/-- C3: shielded fields appear on the wire exactly under the
specified conditions: for version below 2 the encoder output is
independent of the in-memory JoinSplit fields and the decoder leaves
them at their defaults; for version at least 2 the JoinSplit pubkey
and signature trail the encoded stream exactly when the JoinSplit
sequence is non-empty. -/
theorem C3_shielded_gating :
    (∀ tx : CMutableTransaction, tx.nVersion < 2 →
      encodeMut tx
        = encodeMut {tx with vjoinsplit := [], joinSplitPubKey := 0, joinSplitSig := 0})
    ∧ (∀ s m r, decodeMut s = .ok (m, r) → m.nVersion < 2 →
      m.vjoinsplit = [] ∧ m.joinSplitPubKey = 0 ∧ m.joinSplitSig = 0)
    ∧ (∀ tx s, encodeMut tx = .ok s → 2 ≤ tx.nVersion →
      ∃ pre, s = pre ++ serVec serJS tx.vjoinsplit
        ++ (if tx.vjoinsplit.length = 0 then []
            else ser256 tx.joinSplitPubKey ++ serFixed 64 tx.joinSplitSig)) := by
  refine ⟨?_, ?_, ?_⟩
  · intro tx hv
    have h3 : (tx.nVersion == 3) = false := by
      have : tx.nVersion ≠ 3 := by omega
      simpa [beq_eq_false_iff_ne] using this
    have h2v : ¬(2 ≤ tx.nVersion) := by omega
    unfold encodeMut
    cases hof : tx.fOverwintered <;>
      simp [isOverwinterV3, h3, h2v, hof]
  · intro s m r h hv
    unfold decodeMut at h
    repeat' (first | split at h | simp only [] at h)
    all_goals cases h
    all_goals first
      | exact ⟨rfl, rfl, rfl⟩
      | (dsimp only at hv; omega)
  · intro tx s henc hv
    simp only [encodeMut] at henc
    by_cases hg : (tx.fOverwintered
        && !(isOverwinterV3 tx.fOverwintered tx.nVersionGroupId tx.nVersion)) = true
    · rw [if_pos hg] at henc
      cases henc
    · rw [if_neg hg] at henc
      simp only [Except.ok.injEq] at henc
      subst henc
      refine ⟨ser32 (packHeader tx.fOverwintered tx.nVersion)
        ++ (if tx.fOverwintered then ser32 tx.nVersionGroupId else [])
        ++ serVec serTxIn tx.vin ++ serVec serTxOut tx.vout ++ ser32 tx.nLockTime
        ++ (if isOverwinterV3 tx.fOverwintered tx.nVersionGroupId tx.nVersion then
              ser32 tx.nExpiryHeight
            else []), ?_⟩
      rw [if_pos hv]
      simp [List.append_assoc]

theorem C3_shielded_gating_witness :
    (encodeMut ⟨false, 1, 0, [], [], 0, 0, [sampleJS], 5, 6⟩
      = encodeMut ⟨false, 1, 0, [], [], 0, 0, [], 0, 0⟩)
    ∧ (decodeMut [1, 0, 0, 0, 0, 0, 0, 0, 0, 0]
        = .ok (⟨false, 1, 0, [], [], 0, 0, [], 0, 0⟩, [])
      ∧ (⟨false, 1, 0, [], [], 0, 0, [], 0, 0⟩ : CMutableTransaction).vjoinsplit = [])
    ∧ (∃ pre, [2, 0, 0, 0, 0, 0, 0, 0, 0, 0, 0]
        = pre ++ serVec serJS ([] : List JSDescription)
          ++ (if ([] : List JSDescription).length = 0 then []
              else ser256 0 ++ serFixed 64 0)) := by
  refine ⟨?_, ⟨rfl, ?_⟩, ?_⟩
  · exact C3_shielded_gating.1 ⟨false, 1, 0, [], [], 0, 0, [sampleJS], 5, 6⟩ (by decide)
  · exact (C3_shielded_gating.2.1 [1, 0, 0, 0, 0, 0, 0, 0, 0, 0]
      ⟨false, 1, 0, [], [], 0, 0, [], 0, 0⟩ [] rfl (by decide)).1
  · exact C3_shielded_gating.2.2 ⟨false, 2, 0, [], [], 0, 0, [], 0, 0⟩
      [2, 0, 0, 0, 0, 0, 0, 0, 0, 0, 0] rfl (by decide)

/-- C7 counterexample: an output whose script the capability flags
unspendable — byte 106 is OP_RETURN, the canonical provably
unspendable script — but whose value is negative (the null-output
value, minus one) has threshold 0 yet is classified as dust,
refuting the never-dust clause of the claim as stated. -/
theorem C7_dust_counterexample :
    (fun sc : List Nat => sc == [106]) [106] = true
    ∧ GetDustThreshold (fun sc => sc == [106]) ⟨fun _ => 1000⟩ ⟨-1, [106]⟩ = 0
    ∧ IsDust (fun sc => sc == [106]) ⟨fun _ => 1000⟩ ⟨-1, [106]⟩ = true :=
  ⟨rfl, rfl, rfl⟩

/-- C7 amended: the dust threshold is zero for a capability-flagged
unspendable script and three times the fee on the serialized size
plus 148 otherwise; IsDust holds exactly when the value is below the
threshold; consequently an unspendable-script output has threshold
zero and is dust exactly when its value is negative — in particular
it is never dust when its value is non-negative. -/
theorem C7_dust_threshold (isUnspendable : List Nat → Bool)
    (minRelayTxFee : CFeeRate) (o : CTxOut) :
    GetDustThreshold isUnspendable minRelayTxFee o
      = (if isUnspendable o.scriptPubKey then 0
         else 3 * minRelayTxFee.GetFee (txoutSerSize o + 148))
    ∧ (IsDust isUnspendable minRelayTxFee o = true
        ↔ o.nValue < GetDustThreshold isUnspendable minRelayTxFee o)
    ∧ (isUnspendable o.scriptPubKey = true →
        GetDustThreshold isUnspendable minRelayTxFee o = 0
        ∧ (IsDust isUnspendable minRelayTxFee o = true ↔ o.nValue < 0)
        ∧ (0 ≤ o.nValue → IsDust isUnspendable minRelayTxFee o = false)) := by
  refine ⟨rfl, ?_, ?_⟩
  · unfold IsDust
    exact decide_eq_true_iff
  · intro hu
    have ht : GetDustThreshold isUnspendable minRelayTxFee o = 0 := by
      unfold GetDustThreshold
      rw [if_pos hu]
    refine ⟨ht, ?_, ?_⟩
    · unfold IsDust
      rw [ht]
      exact decide_eq_true_iff
    · intro hv
      unfold IsDust
      rw [ht]
      simp
      omega

theorem C7_dust_threshold_witness :
    GetDustThreshold (fun _ => true) ⟨fun _ => 1000⟩ ⟨-1, []⟩ = 0
    ∧ (fun _ : List Nat => true) ([] : List Nat) = true
    ∧ (0 : Int) ≤ 5
    ∧ IsDust (fun _ => true) ⟨fun _ => 1000⟩ ⟨5, []⟩ = false := by
  have h := C7_dust_threshold (fun _ => true) ⟨fun _ => 1000⟩ ⟨5, []⟩
  exact ⟨((C7_dust_threshold (fun _ => true) ⟨fun _ => 1000⟩ ⟨-1, []⟩).2.2 rfl).1,
    rfl, by norm_num, (h.2.2 rfl).2.2 (by norm_num)⟩

end VerusCoin
